import Mathlib

/-!
Verification of the emotion fusion and temporal smoothing engine of the
Study_Emotion_Awareness repository.

The development shallowly embeds the two TypeScript services
`facialEmotionDetector.ts` and `multiModalEmotionContext.ts`:

* JavaScript numbers are modelled as exact rationals (`ℚ`);
* JavaScript objects used as string-keyed maps (`emotionScores`,
  `emotionCounts`, `emotionConfidences`) are modelled as association lists
  `List (String × ℚ)` whose iteration order is insertion order, matching
  the ECMAScript iteration order for string keys of plain objects;
* `Date.now()` is passed in as an explicit `now : Int` parameter;
* array references (needed to reason about the spread-copy in
  `getCurrentState`) are modelled in a dedicated small heap model.
-/

namespace StudyEmotion

/-- Read of `m[k]` on a JS object used as a map, with the `|| 0` default:
returns the value of the first entry with key `k`, or `0` if absent. -/
def objGetD : List (String × ℚ) → String → ℚ
  | [], _ => 0
  | (k', v') :: rest, k => if k' = k then v' else objGetD rest k

/-- Write `m[k] = v` on a JS object used as a map: updates the first entry
with key `k` in place (keeping its position in iteration order), or appends
a new entry at the end if the key is absent. -/
def objSet : List (String × ℚ) → String → ℚ → List (String × ℚ)
  | [], k, v => [(k, v)]
  | (k', v') :: rest, k, v =>
      if k' = k then (k, v) :: rest else (k', v') :: objSet rest k v

/-- The accumulation pattern `m[k] = (m[k] || 0) + w` used by both services. -/
def accumAdd (m : List (String × ℚ)) (k : String) (w : ℚ) : List (String × ℚ) :=
  objSet m k (objGetD m k + w)

/-- Accumulate a list of (key, weight) contributions into a fresh map,
mirroring the `forEach` accumulation loops of both services. -/
def accumScores (E : List (String × ℚ)) : List (String × ℚ) :=
  E.foldl (fun m p => accumAdd m p.1 p.2) []

/-- The `array.push(x); if (array.length > limit) array.shift();` pattern
used for both bounded buffers (smoothing window, fusion history). -/
def pushBounded {α : Type} (limit : Nat) (xs : List α) (x : α) : List α :=
  let ys := xs ++ [x]
  if limit < ys.length then ys.drop 1 else ys

/-- The fold `Object.entries(map).forEach(... if (score > maxScore) ...)`
with initial accumulator `acc₀`: keeps the first entry that strictly
exceeds every earlier value. -/
def maxFold (acc₀ : String × ℚ) (l : List (String × ℚ)) : String × ℚ :=
  l.foldl (fun best p => if p.2 > best.2 then p else best) acc₀

/-! ## facialEmotionDetector.ts -/

/-- The raw face-api.js expression distribution (`detections.expressions`). -/
structure FacialExpressions where
  neutral : ℚ
  happy : ℚ
  sad : ℚ
  angry : ℚ
  fearful : ℚ
  disgusted : ℚ
  surprised : ℚ
deriving DecidableEq, Repr

/-- Result of `processFaceExpressions`. -/
structure FacialEmotionData where
  emotion : String
  confidence : ℚ
  expressions : FacialExpressions
  timestamp : Int
deriving DecidableEq, Repr

/-- Output shape of the temporal smoother (`SmoothedEmotionState`). -/
structure SmoothedEmotionState where
  emotion : String
  confidence : ℚ
  history : List FacialEmotionData
  lastUpdate : Int
deriving DecidableEq, Repr

/-- `Object.entries(expressions)` in the declared key order of the
`expressions` parameter (neutral, happy, sad, angry, fearful, disgusted,
surprised). -/
def expressionsEntries (e : FacialExpressions) : List (String × ℚ) :=
  [("neutral", e.neutral), ("happy", e.happy), ("sad", e.sad),
   ("angry", e.angry), ("fearful", e.fearful), ("disgusted", e.disgusted),
   ("surprised", e.surprised)]

/-- Dominant-expression scan of `processFaceExpressions`: starts from
`dominantEmotion = 'neutral'`, `maxConfidence = expressions.neutral` and
replaces the current best only on a strict increase. -/
def findDominantExpr (e : FacialExpressions) : String × ℚ :=
  maxFold ("neutral", e.neutral) (expressionsEntries e)

/-- The raw-winner → Mentora-label if/else chain of `processFaceExpressions`. -/
def mapRawEmotion (raw : String) : String :=
  if raw = "happy" then "happy"
  else if raw = "sad" then "tired"
  else if raw = "angry" then "stressed"
  else if raw = "fearful" then "stressed"
  else if raw = "surprised" then "focused"
  else "neutral"

/-- `processFaceExpressions(expressions)` at time `now`. -/
def processFaceExpressions (e : FacialExpressions) (now : Int) : FacialEmotionData :=
  { emotion := mapRawEmotion (findDominantExpr e).1
    confidence := (findDominantExpr e).2
    expressions := e
    timestamp := now }

/-- One detection tick of `startDetection`: process the raw expressions and
push the result onto the bounded smoothing window (`maxHistorySize = 10`). -/
def ingestFacial (hist : List FacialEmotionData) (e : FacialExpressions)
    (now : Int) : List FacialEmotionData :=
  pushBounded 10 hist (processFaceExpressions e now)

/-- The `emotionCounts` map built by `getSmoothedEmotion`. -/
def emotionCounts (hist : List FacialEmotionData) : List (String × ℚ) :=
  accumScores (hist.map fun d => (d.emotion, (1 : ℚ)))

/-- The `emotionConfidences` map built by `getSmoothedEmotion`. -/
def emotionConfidences (hist : List FacialEmotionData) : List (String × ℚ) :=
  accumScores (hist.map fun d => (d.emotion, d.confidence))

/-- Majority scan of `getSmoothedEmotion`: initial accumulator is
`dominantEmotion = 'neutral'`, `maxCount = 0`. -/
def dominantOf (l : List (String × ℚ)) : String × ℚ :=
  maxFold ("neutral", 0) l

/-- `getSmoothedEmotion()` over the window `hist` at time `now`. -/
def getSmoothedEmotion (hist : List FacialEmotionData) (now : Int) :
    SmoothedEmotionState :=
  if hist = [] then
    { emotion := "neutral", confidence := 1/2, history := [], lastUpdate := now }
  else
    { emotion := (dominantOf (emotionCounts hist)).1
      confidence :=
        min (objGetD (emotionConfidences hist) (dominantOf (emotionCounts hist)).1
          / objGetD (emotionCounts hist) (dominantOf (emotionCounts hist)).1) 1
      history := hist
      lastUpdate := now }

/-! ## multiModalEmotionContext.ts -/

/-- `TextEmotionData`. -/
structure TextEmotionData where
  emotion : String
  confidence : ℚ
  timestamp : Int
deriving DecidableEq, Repr

/-- `VoiceEmotionData`. -/
structure VoiceEmotionData where
  emotion : String
  confidence : ℚ
  tone : String
  timestamp : Int
deriving DecidableEq, Repr

/-- An entry of `emotionHistory`. -/
structure HistEntry where
  emotion : String
  source : String
  timestamp : Int
deriving DecidableEq, Repr

/-- `MultiModalEmotionState`. -/
structure MultiModalEmotionState where
  facialEmotion : Option SmoothedEmotionState
  voiceEmotion : Option VoiceEmotionData
  textEmotion : Option TextEmotionData
  sessionDuration : ℚ
  mergedEmotion : String
  confidence : ℚ
  lastUpdate : Int
  emotionHistory : List HistEntry
deriving DecidableEq, Repr

/-- `EMOTION_WEIGHTS.facial`. -/
def EMOTION_WEIGHTS_facial : ℚ := 0.5

/-- `EMOTION_WEIGHTS.voice`. -/
def EMOTION_WEIGHTS_voice : ℚ := 0.3

/-- `EMOTION_WEIGHTS.text`. -/
def EMOTION_WEIGHTS_text : ℚ := 0.2

/-- `emotionHistoryLimit`. -/
def emotionHistoryLimit : Nat := 50

/-- The `emotions` array collected at the start of `recomputeMergedEmotion`:
one (label, weight) pair per present channel, in source order
(facial, voice, text). -/
def collectEmotions (s : MultiModalEmotionState) : List (String × ℚ) :=
  (match s.facialEmotion with
   | some f => [(f.emotion, EMOTION_WEIGHTS_facial)]
   | none => []) ++
  (match s.voiceEmotion with
   | some v => [(v.emotion, EMOTION_WEIGHTS_voice)]
   | none => []) ++
  (match s.textEmotion with
   | some t => [(t.emotion, EMOTION_WEIGHTS_text)]
   | none => [])

/-- `totalWeight` accumulated over the `emotions` array. -/
def totalWeight (E : List (String × ℚ)) : ℚ :=
  E.foldl (fun t p => t + p.2) 0

/-- The `emotionScores` map after the normalization loop
(`emotionScores[emotion] /= totalWeight`). -/
def normalizedScores (s : MultiModalEmotionState) : List (String × ℚ) :=
  (accumScores (collectEmotions s)).map
    (fun p => (p.1, p.2 / totalWeight (collectEmotions s)))

/-- The `emotionScores` map after the line
`emotionScores['tired'] = emotionScores['tired'] || 0` (which keeps an
existing `tired` entry in place and otherwise creates one holding 0). -/
def ensuredScores (s : MultiModalEmotionState) : List (String × ℚ) :=
  objSet (normalizedScores s) "tired" (objGetD (normalizedScores s) "tired")

/-- The `emotionScores` map after the 45-minute fatigue branch
(`if sessionDuration > 45 * 60 then emotionScores['tired'] += 0.1`). -/
def bias45Scores (s : MultiModalEmotionState) : List (String × ℚ) :=
  if s.sessionDuration > 45 * 60 then
    objSet (ensuredScores s) "tired" (objGetD (ensuredScores s) "tired" + 0.1)
  else ensuredScores s

/-- The `emotionScores` map after both fatigue branches (the 90-minute
branch adds a further 0.15 to `tired`). -/
def biasedScores (s : MultiModalEmotionState) : List (String × ℚ) :=
  if s.sessionDuration > 90 * 60 then
    objSet (bias45Scores s) "tired" (objGetD (bias45Scores s) "tired" + 0.15)
  else bias45Scores s

/-- `recomputeMergedEmotion()` at time `now`. -/
def recomputeMergedEmotion (s : MultiModalEmotionState) (now : Int) :
    MultiModalEmotionState :=
  if collectEmotions s = [] then
    { s with mergedEmotion := "neutral", confidence := 1/2 }
  else
    { s with
      mergedEmotion := (dominantOf (biasedScores s)).1
      confidence := min (dominantOf (biasedScores s)).2 1
      emotionHistory :=
        pushBounded emotionHistoryLimit s.emotionHistory
          { emotion := (dominantOf (biasedScores s)).1
            source := "merged"
            timestamp := now } }

/-- The creation-time value of `currentState` (with `Date.now()` = `now`). -/
def initialState (now : Int) : MultiModalEmotionState :=
  { facialEmotion := none
    voiceEmotion := none
    textEmotion := none
    sessionDuration := 0
    mergedEmotion := "neutral"
    confidence := 1/2
    lastUpdate := now
    emotionHistory := [] }

/-- `updateFacialEmotion(facialEmotion)` at time `now`. -/
def updateFacialEmotion (s : MultiModalEmotionState) (f : SmoothedEmotionState)
    (now : Int) : MultiModalEmotionState :=
  recomputeMergedEmotion { s with facialEmotion := some f, lastUpdate := now } now

/-- `updateVoiceEmotion(voiceEmotion)` at time `now`. -/
def updateVoiceEmotion (s : MultiModalEmotionState) (v : VoiceEmotionData)
    (now : Int) : MultiModalEmotionState :=
  recomputeMergedEmotion { s with voiceEmotion := some v, lastUpdate := now } now

/-- `updateTextEmotion(textEmotion)` at time `now`. -/
def updateTextEmotion (s : MultiModalEmotionState) (t : TextEmotionData)
    (now : Int) : MultiModalEmotionState :=
  recomputeMergedEmotion { s with textEmotion := some t, lastUpdate := now } now

/-- `updateSessionDuration(seconds)` at time `now`: stores the duration and
recomputes; it does not touch `lastUpdate`. -/
def updateSessionDuration (s : MultiModalEmotionState) (secs : ℚ)
    (now : Int) : MultiModalEmotionState :=
  recomputeMergedEmotion { s with sessionDuration := secs } now

/-- `reset()` at time `now`: the literal object assigned in the source. -/
def reset (now : Int) : MultiModalEmotionState :=
  { facialEmotion := none
    voiceEmotion := none
    textEmotion := none
    sessionDuration := 0
    mergedEmotion := "neutral"
    confidence := 1/2
    lastUpdate := now
    emotionHistory := [] }

/-- `getResponseGuidelines`'s nested `voiceSettings` object. -/
structure VoiceSettings where
  pitch : String
  pace : String
  emotion : String
deriving DecidableEq, Repr

/-- `EmotionResponseGuidelines` (enumeration values kept as strings). -/
structure EmotionResponseGuidelines where
  tone : String
  verbosity : String
  detail : String
  suggestions : List String
  breakNeeded : Bool
  encouragement : Bool
  voiceSettings : VoiceSettings
deriving DecidableEq, Repr

/-- The `switch (emotion)` dispatch of `getResponseGuidelines`, as a
function of the scrutinised label. -/
def guidelinesFor (emotion : String) : EmotionResponseGuidelines :=
  if emotion = "happy" ∨ emotion = "focused" then
    { tone := "energetic", verbosity := "normal", detail := "comprehensive",
      suggestions := ["Continue learning", "Maintain momentum"],
      breakNeeded := false, encouragement := true,
      voiceSettings := { pitch := "high", pace := "fast", emotion := "happy" } }
  else if emotion = "stressed" ∨ emotion = "anxious" then
    { tone := "calm", verbosity := "concise", detail := "simplified",
      suggestions := ["Take a short break", "Try a breathing exercise",
        "Move to a different location"],
      breakNeeded := true, encouragement := true,
      voiceSettings := { pitch := "low", pace := "slow", emotion := "calm" } }
  else if emotion = "tired" ∨ emotion = "sad" then
    { tone := "supportive", verbosity := "minimal", detail := "simplified",
      suggestions := ["Take a longer break", "Try a 10-minute power nap",
        "Go for a walk", "Stretch and move around"],
      breakNeeded := true, encouragement := true,
      voiceSettings := { pitch := "medium", pace := "slow", emotion := "calm" } }
  else if emotion = "confused" then
    { tone := "patient", verbosity := "detailed", detail := "step-by-step",
      suggestions := ["Break down the problem", "Use analogies",
        "Start with fundamentals"],
      breakNeeded := false, encouragement := true,
      voiceSettings := { pitch := "medium", pace := "medium", emotion := "calm" } }
  else
    { tone := "professional", verbosity := "normal", detail := "comprehensive",
      suggestions := ["Keep learning", "Maintain focus"],
      breakNeeded := false, encouragement := false,
      voiceSettings := { pitch := "medium", pace := "normal", emotion := "neutral" } }

/-- `getResponseGuidelines()`: reads `this.currentState.mergedEmotion` and
dispatches on it. -/
def getResponseGuidelines (s : MultiModalEmotionState) : EmotionResponseGuidelines :=
  guidelinesFor s.mergedEmotion

/-! ## Operation sequences over the two engines -/

/-- The state-mutating public operations of `MultiModalEmotionContext`. -/
inductive FusionOp : Type
  | setFacial (f : SmoothedEmotionState) (now : Int)
  | setVoice (v : VoiceEmotionData) (now : Int)
  | setText (t : TextEmotionData) (now : Int)
  | setDuration (secs : ℚ) (now : Int)
  | doReset (now : Int)
deriving DecidableEq

/-- Apply one fusion-engine operation. -/
def applyOp (s : MultiModalEmotionState) : FusionOp → MultiModalEmotionState
  | FusionOp.setFacial f now => updateFacialEmotion s f now
  | FusionOp.setVoice v now => updateVoiceEmotion s v now
  | FusionOp.setText t now => updateTextEmotion s t now
  | FusionOp.setDuration secs now => updateSessionDuration s secs now
  | FusionOp.doReset now => reset now

/-- Run a sequence of fusion-engine operations. -/
def runOps (s : MultiModalEmotionState) (ops : List FusionOp) :
    MultiModalEmotionState :=
  ops.foldl applyOp s

/-- The state-mutating operations of `FacialEmotionDetector` acting on its
`emotionHistory` window: a detection tick, and the clears performed by
`clearHistory`/`stopDetection`. -/
inductive SmootherOp : Type
  | ingest (e : FacialExpressions) (now : Int)
  | clear
deriving DecidableEq

/-- Apply one smoother operation to the window. -/
def applySmootherOp (hist : List FacialEmotionData) :
    SmootherOp → List FacialEmotionData
  | SmootherOp.ingest e now => ingestFacial hist e now
  | SmootherOp.clear => []

/-- Run a sequence of smoother operations. -/
def runSmoother (hist : List FacialEmotionData) (ops : List SmootherOp) :
    List FacialEmotionData :=
  ops.foldl applySmootherOp hist

/-! ## Specification-side definitions

These definitions transcribe the specification's wording (not the code) and
are compared with the code-derived definitions in refinement theorems. -/

/-- The selection rule as the specification words it: the label with
strictly maximal total wins; on ties the first label encountered in
iteration order is kept. -/
def argmaxFirst : List (String × ℚ) → String × ℚ
  | [] => ("neutral", 0)
  | p :: rest => maxFold p rest

/-- Per-label weight total as the specification words it: each present
channel contributes its fixed weight (facial 0.5, voice 0.3, text 0.2) to
its label's total. -/
def channelWeightTotal (s : MultiModalEmotionState) (e : String) : ℚ :=
  (match s.facialEmotion with
   | some f => if f.emotion = e then (0.5 : ℚ) else 0
   | none => 0) +
  (match s.voiceEmotion with
   | some v => if v.emotion = e then (0.3 : ℚ) else 0
   | none => 0) +
  (match s.textEmotion with
   | some t => if t.emotion = e then (0.2 : ℚ) else 0
   | none => 0)

/-- Sum of the weights of the present channels, as the specification words
it (the normalization divisor). -/
def presentWeightSum (s : MultiModalEmotionState) : ℚ :=
  (match s.facialEmotion with | some _ => (0.5 : ℚ) | none => 0) +
  (match s.voiceEmotion with | some _ => (0.3 : ℚ) | none => 0) +
  (match s.textEmotion with | some _ => (0.2 : ℚ) | none => 0)

/-- The fixed raw-winner → canonical-label lookup as the specification
words it: raw `sad`→`tired`, `angry`→`stressed`, `fearful`→`stressed`,
`surprised`→`focused`, `happy`→`happy`, anything else→`neutral`. -/
def rawToCanonical : List (String × String) :=
  [("sad", "tired"), ("angry", "stressed"), ("fearful", "stressed"),
   ("surprised", "focused"), ("happy", "happy")]

/-- Look a raw winner up in `rawToCanonical`, defaulting to `neutral`. -/
def lookupCanonical (raw : String) : String :=
  ((rawToCanonical.find? fun p => p.1 = raw).map Prod.snd).getD "neutral"

/-- Number of window entries carrying label `l`. -/
def countLabel (hist : List FacialEmotionData) (l : String) : Nat :=
  (hist.filter fun d => d.emotion = l).length

/-- Sum of the confidences recorded for label `l` within the window. -/
def labelConfSum (hist : List FacialEmotionData) (l : String) : ℚ :=
  ((hist.filter fun d => d.emotion = l).map FacialEmotionData.confidence).sum

/-! ## Reference-semantics model of getCurrentState

`getCurrentState()` returns `{ ...this.currentState }`. The ECMAScript
spread operator copies the top-level fields, but an array-valued field
(`emotionHistory`) is copied as a *reference* to the same array object.
To reason about this aliasing, `RefSem` models the history array as a
reference (an index) into an explicit heap of arrays; the other fields are
kept by value, which is sound for reads since the engine replaces those
fields wholesale rather than mutating them in place. -/

namespace RefSem

/-- Heap of history arrays; a reference is an index into it. -/
abbrev Heap := List (List HistEntry)

/-- `currentState`, with `emotionHistory` held by reference. -/
structure MMStateObj where
  facialEmotion : Option SmoothedEmotionState
  voiceEmotion : Option VoiceEmotionData
  textEmotion : Option TextEmotionData
  sessionDuration : ℚ
  mergedEmotion : String
  confidence : ℚ
  lastUpdate : Int
  emotionHistory : Nat
deriving DecidableEq, Repr

/-- Dereference an array reference. -/
def heapGet (h : Heap) (r : Nat) : List HistEntry := h.getD r []

/-- Store through an array reference. -/
def heapSet (h : Heap) (r : Nat) (v : List HistEntry) : Heap := h.set r v

/-- `getCurrentState()`: the spread `{ ...this.currentState }` copies every
field, the array field as a shared reference. -/
def getCurrentState (s : MMStateObj) : MMStateObj :=
  { facialEmotion := s.facialEmotion
    voiceEmotion := s.voiceEmotion
    textEmotion := s.textEmotion
    sessionDuration := s.sessionDuration
    mergedEmotion := s.mergedEmotion
    confidence := s.confidence
    lastUpdate := s.lastUpdate
    emotionHistory := s.emotionHistory }

/-- A caller mutating the array it got back: `returned.emotionHistory.push(x)`. -/
def clientPush (h : Heap) (r : Nat) (x : HistEntry) : Heap :=
  heapSet h r (heapGet h r ++ [x])

/-- The history the engine itself observes (what a later `getState()` or
recompute reads through the internal reference). -/
def observedHistory (s : MMStateObj) (h : Heap) : List HistEntry :=
  heapGet h s.emotionHistory

/-- Engine state at creation: internal history is the (empty) array at
reference 0. -/
def initialObj : MMStateObj :=
  { facialEmotion := none, voiceEmotion := none, textEmotion := none,
    sessionDuration := 0, mergedEmotion := "neutral", confidence := 1/2,
    lastUpdate := 0, emotionHistory := 0 }

/-- Heap at creation: one empty history array. -/
def initialHeap : Heap := [[]]

end RefSem

/-! ## Association-list lemmas -/

/-- Keys of a map, in iteration order. -/
def keysOf (m : List (String × ℚ)) : List String := m.map Prod.fst

/-- Sum of the weights contributed to key `e` by the entry list `E`. -/
def keyWeightSum (E : List (String × ℚ)) (e : String) : ℚ :=
  ((E.filter fun p => p.1 = e).map Prod.snd).sum

theorem objGetD_objSet_self (m : List (String × ℚ)) (k : String) (v : ℚ) :
    objGetD (objSet m k v) k = v := by
  induction m with
  | nil => simp [objSet, objGetD]
  | cons a rest ih =>
      obtain ⟨k', v'⟩ := a
      by_cases h : k' = k
      · simp [objSet, objGetD, h]
      · simp [objSet, objGetD, h, ih]

theorem objGetD_objSet_other (m : List (String × ℚ)) (k k' : String) (v : ℚ)
    (h : k' ≠ k) : objGetD (objSet m k v) k' = objGetD m k' := by
  have hkk : k ≠ k' := fun hh => h hh.symm
  induction m with
  | nil => simp [objSet, objGetD, hkk]
  | cons a rest ih =>
      obtain ⟨ka, va⟩ := a
      by_cases hk : ka = k
      · subst hk
        simp [objSet, objGetD, hkk]
      · by_cases hk' : ka = k'
        · simp [objSet, objGetD, hk, hk', h]
        · simp [objSet, objGetD, hk, hk', ih]

theorem keyWeightSum_nil (e : String) : keyWeightSum [] e = 0 := rfl

theorem keyWeightSum_cons (p : String × ℚ) (E : List (String × ℚ)) (e : String) :
    keyWeightSum (p :: E) e = (if p.1 = e then p.2 else 0) + keyWeightSum E e := by
  by_cases h : p.1 = e <;> simp [keyWeightSum, h]

theorem objGetD_foldl_accum (E : List (String × ℚ)) (m : List (String × ℚ))
    (e : String) :
    objGetD (E.foldl (fun m p => accumAdd m p.1 p.2) m) e
      = objGetD m e + keyWeightSum E e := by
  induction E generalizing m with
  | nil => simp [keyWeightSum]
  | cons p rest ih =>
      rw [List.foldl_cons, ih, keyWeightSum_cons]
      by_cases h : p.1 = e
      · rw [if_pos h, accumAdd, h, objGetD_objSet_self]
        ring
      · rw [if_neg h, accumAdd,
          objGetD_objSet_other m p.1 e (objGetD m p.1 + p.2) (fun hh => h hh.symm)]
        ring

theorem objGetD_accumScores (E : List (String × ℚ)) (e : String) :
    objGetD (accumScores E) e = keyWeightSum E e := by
  have h := objGetD_foldl_accum E [] e
  simpa [accumScores, objGetD] using h

theorem objGetD_map_div (m : List (String × ℚ)) (t : ℚ) (e : String) :
    objGetD (m.map fun p => (p.1, p.2 / t)) e = objGetD m e / t := by
  induction m with
  | nil => simp [objGetD]
  | cons a rest ih =>
      by_cases h : a.1 = e <;> simp [objGetD, h, ih]

theorem mem_keysOf_objSet (m : List (String × ℚ)) (k : String) (v : ℚ)
    (k' : String) : k' ∈ keysOf (objSet m k v) ↔ k' ∈ keysOf m ∨ k' = k := by
  induction m with
  | nil => simp [objSet, keysOf]
  | cons a rest ih =>
      obtain ⟨ka, va⟩ := a
      by_cases h : ka = k
      · subst h
        simp [objSet, keysOf]
        tauto
      · simp [objSet, keysOf, h] at ih ⊢
        tauto

theorem nodup_keysOf_objSet (m : List (String × ℚ)) (k : String) (v : ℚ)
    (h : (keysOf m).Nodup) : (keysOf (objSet m k v)).Nodup := by
  induction m with
  | nil => simp [objSet, keysOf]
  | cons a rest ih =>
      obtain ⟨ka, va⟩ := a
      rw [keysOf, List.map_cons, List.nodup_cons] at h
      by_cases hk : ka = k
      · subst hk
        have hset : objSet ((ka, va) :: rest) ka v = (ka, v) :: rest := by
          simp [objSet]
        rw [hset, keysOf, List.map_cons, List.nodup_cons]
        exact h
      · have hset : objSet ((ka, va) :: rest) k v = (ka, va) :: objSet rest k v := by
          simp [objSet, hk]
        rw [hset, keysOf, List.map_cons, List.nodup_cons]
        constructor
        · intro hmem
          rcases (mem_keysOf_objSet rest k v ka).1 hmem with hh | hh
          · exact h.1 hh
          · exact hk hh
        · exact ih h.2

theorem nodup_keysOf_accumScores (E : List (String × ℚ)) :
    (keysOf (accumScores E)).Nodup := by
  have gen : ∀ (E' : List (String × ℚ)) (m : List (String × ℚ)),
      (keysOf m).Nodup →
      (keysOf (E'.foldl (fun m p => accumAdd m p.1 p.2) m)).Nodup := by
    intro E'
    induction E' with
    | nil => intro m hm; simpa using hm
    | cons p rest ih =>
        intro m hm
        rw [List.foldl_cons]
        exact ih _ (nodup_keysOf_objSet m p.1 _ hm)
  exact gen E [] (by simp [keysOf])

theorem mem_keysOf_accumScores (E : List (String × ℚ)) (e : String) :
    e ∈ keysOf (accumScores E) ↔ e ∈ E.map Prod.fst := by
  have gen : ∀ (E' : List (String × ℚ)) (m : List (String × ℚ)),
      e ∈ keysOf (E'.foldl (fun m p => accumAdd m p.1 p.2) m) ↔
        e ∈ keysOf m ∨ e ∈ E'.map Prod.fst := by
    intro E'
    induction E' with
    | nil => intro m; simp
    | cons p rest ih =>
        intro m
        rw [List.foldl_cons, ih]
        rw [show accumAdd m p.1 p.2 = objSet m p.1 (objGetD m p.1 + p.2) from rfl]
        rw [mem_keysOf_objSet]
        simp
        tauto
  rw [accumScores, gen E []]
  simp [keysOf]

theorem getD_mem_of_mem_keysOf (m : List (String × ℚ)) (k : String)
    (h : k ∈ keysOf m) : (k, objGetD m k) ∈ m := by
  induction m with
  | nil => simp [keysOf] at h
  | cons a rest ih =>
      obtain ⟨ka, va⟩ := a
      by_cases hk : ka = k
      · subst hk
        simp [objGetD]
      · simp [keysOf, hk] at h
        rcases h with h | h
        · exact absurd h.symm hk
        · simp [objGetD, hk]
          exact Or.inr (ih (by simpa [keysOf] using h))

theorem val_eq_getD_of_mem (m : List (String × ℚ)) (p : String × ℚ)
    (hnd : (keysOf m).Nodup) (hp : p ∈ m) : p.2 = objGetD m p.1 := by
  induction m with
  | nil => simp at hp
  | cons a rest ih =>
      obtain ⟨ka, va⟩ := a
      simp [keysOf] at hnd
      rcases List.mem_cons.1 hp with h | h
      · subst h
        simp [objGetD]
      · have hka : ka ≠ p.1 := by
          intro hh
          exact hnd.1 p.2 (by simpa [hh] using h)
        simp [objGetD, hka]
        exact ih hnd.2 h

/-! ## Fold (argmax scan) lemmas -/

theorem maxFold_cons (acc p : String × ℚ) (l : List (String × ℚ)) :
    maxFold acc (p :: l) = maxFold (if p.2 > acc.2 then p else acc) l := rfl

theorem maxFold_stay (l : List (String × ℚ)) (acc : String × ℚ)
    (h : ∀ p ∈ l, ¬ acc.2 < p.2) : maxFold acc l = acc := by
  induction l with
  | nil => rfl
  | cons q rest ih =>
      rw [maxFold_cons]
      have hq : ¬ q.2 > acc.2 := h q (List.mem_cons_self q rest)
      rw [if_neg hq]
      exact ih fun p hp => h p (List.mem_cons_of_mem q hp)

theorem maxFold_eq_of_strict (l : List (String × ℚ)) (k : String) (v : ℚ) :
    ∀ acc : String × ℚ, (k, v) ∈ l → acc.2 < v →
    (∀ p ∈ l, p = (k, v) ∨ p.2 < v) → maxFold acc l = (k, v) := by
  induction l with
  | nil => intro acc hm; simp at hm
  | cons q rest ih =>
      intro acc hm hacc hall
      by_cases hq : q = (k, v)
      · subst hq
        rw [maxFold_cons, if_pos hacc]
        apply maxFold_stay
        intro p hp
        rcases hall p (List.mem_cons_of_mem _ hp) with h | h
        · rw [h]; exact lt_irrefl v
        · exact not_lt.2 (le_of_lt h)
      · have hqlt : q.2 < v := by
          rcases hall q (List.mem_cons_self q rest) with h | h
          · exact absurd h hq
          · exact h
        have hmem : (k, v) ∈ rest := by
          rcases List.mem_cons.1 hm with h | h
          · exact absurd h.symm hq
          · exact h
        rw [maxFold_cons]
        apply ih _ hmem _ (fun p hp => hall p (List.mem_cons_of_mem _ hp))
        by_cases hcmp : q.2 > acc.2
        · rw [if_pos hcmp]; exact hqlt
        · rw [if_neg hcmp]; exact hacc

theorem dominantOf_eq_argmaxFirst (p : String × ℚ) (l : List (String × ℚ))
    (h : 0 < p.2) : dominantOf (p :: l) = argmaxFirst (p :: l) := by
  rw [dominantOf, maxFold_cons, if_pos h, argmaxFirst]

/-! ## pushBounded lemmas -/

theorem length_pushBounded_le {α : Type} (limit : Nat) (xs : List α) (x : α)
    (h : xs.length ≤ limit) : (pushBounded limit xs x).length ≤ limit := by
  show (if limit < (xs ++ [x]).length then (xs ++ [x]).drop 1
        else xs ++ [x]).length ≤ limit
  by_cases h1 : limit < (xs ++ [x]).length
  · rw [if_pos h1]
    simp only [List.length_drop, List.length_append, List.length_cons,
      List.length_nil]
    omega
  · rw [if_neg h1]
    simp only [List.length_append, List.length_cons, List.length_nil] at h1 ⊢
    omega

theorem pushBounded_eq_drop {α : Type} (limit : Nat) (xs : List α) (x : α)
    (h : xs.length = limit) (hpos : 0 < limit) :
    pushBounded limit xs x = xs.drop 1 ++ [x] := by
  cases xs with
  | nil =>
      exfalso
      simp only [List.length_nil] at h
      omega
  | cons a t =>
      have hlen : limit < ((a :: t) ++ [x]).length := by
        simp only [List.length_append, List.length_cons, List.length_nil] at h ⊢
        omega
      show (if limit < ((a :: t) ++ [x]).length then ((a :: t) ++ [x]).drop 1
            else (a :: t) ++ [x]) = (a :: t).drop 1 ++ [x]
      rw [if_pos hlen]
      simp

/-! ## Structure of the fusion score map -/

theorem mem_collectEmotions_weight (s : MultiModalEmotionState) (p : String × ℚ)
    (hp : p ∈ collectEmotions s) : 0 < p.2 := by
  rw [collectEmotions, List.mem_append, List.mem_append] at hp
  rcases hp with (hp | hp) | hp
  · cases hf : s.facialEmotion with
    | none => rw [hf] at hp; simp at hp
    | some f =>
        rw [hf] at hp
        rw [show (match some f with
            | some f => [(f.emotion, EMOTION_WEIGHTS_facial)]
            | none => ([] : List (String × ℚ))) = [(f.emotion, EMOTION_WEIGHTS_facial)]
          from rfl, List.mem_singleton] at hp
        rw [hp]
        norm_num [EMOTION_WEIGHTS_facial]
  · cases hv : s.voiceEmotion with
    | none => rw [hv] at hp; simp at hp
    | some v =>
        rw [hv] at hp
        rw [show (match some v with
            | some v => [(v.emotion, EMOTION_WEIGHTS_voice)]
            | none => ([] : List (String × ℚ))) = [(v.emotion, EMOTION_WEIGHTS_voice)]
          from rfl, List.mem_singleton] at hp
        rw [hp]
        norm_num [EMOTION_WEIGHTS_voice]
  · cases ht : s.textEmotion with
    | none => rw [ht] at hp; simp at hp
    | some t =>
        rw [ht] at hp
        rw [show (match some t with
            | some t => [(t.emotion, EMOTION_WEIGHTS_text)]
            | none => ([] : List (String × ℚ))) = [(t.emotion, EMOTION_WEIGHTS_text)]
          from rfl, List.mem_singleton] at hp
        rw [hp]
        norm_num [EMOTION_WEIGHTS_text]

theorem foldl_accum_head (E : List (String × ℚ)) :
    ∀ (k : String) (v : ℚ) (m₀ : List (String × ℚ)),
    (∀ p ∈ E, 0 ≤ p.2) →
    ∃ v' r', E.foldl (fun m p => accumAdd m p.1 p.2) ((k, v) :: m₀)
        = (k, v') :: r' ∧ v ≤ v' := by
  induction E with
  | nil => intro k v m₀ _; exact ⟨v, m₀, rfl, le_refl v⟩
  | cons q rest ih =>
      intro k v m₀ hw
      rw [List.foldl_cons]
      by_cases hk : k = q.1
      · have hstep : accumAdd ((k, v) :: m₀) q.1 q.2 = (q.1, v + q.2) :: m₀ := by
          simp [accumAdd, objSet, objGetD, hk]
        rw [hstep]
        obtain ⟨v', r', heq, hle⟩ :=
          ih q.1 (v + q.2) m₀ (fun p hp => hw p (List.mem_cons_of_mem _ hp))
        refine ⟨v', r', ?_, ?_⟩
        · rw [hk]; exact heq
        · exact le_trans
            (le_add_of_nonneg_right (hw q (List.mem_cons_self q rest))) hle
      · have hstep : accumAdd ((k, v) :: m₀) q.1 q.2
            = (k, v) :: objSet m₀ q.1 (objGetD m₀ q.1 + q.2) := by
          simp [accumAdd, objSet, objGetD, hk]
        rw [hstep]
        exact ih k v _ (fun p hp => hw p (List.mem_cons_of_mem _ hp))

theorem accumScores_head (E : List (String × ℚ)) (q : String × ℚ)
    (hw : ∀ p ∈ E, 0 ≤ p.2) :
    ∃ v' r', accumScores (q :: E) = (q.1, v') :: r' ∧ q.2 ≤ v' := by
  rw [accumScores, List.foldl_cons]
  have hstep : accumAdd [] q.1 q.2 = [(q.1, q.2)] := by
    simp [accumAdd, objSet, objGetD]
  rw [hstep]
  exact foldl_accum_head E q.1 q.2 [] hw

theorem foldl_add_le (E : List (String × ℚ)) :
    ∀ t : ℚ, (∀ p ∈ E, 0 ≤ p.2) →
      t ≤ E.foldl (fun acc p => acc + p.2) t := by
  induction E with
  | nil => intro t _; exact le_refl t
  | cons q rest ih =>
      intro t hw
      rw [List.foldl_cons]
      calc t ≤ t + q.2 := le_add_of_nonneg_right (hw q (List.mem_cons_self q rest))
        _ ≤ _ := ih (t + q.2) (fun p hp => hw p (List.mem_cons_of_mem _ hp))

theorem totalWeight_pos (E : List (String × ℚ)) (q : String × ℚ)
    (h : ∀ p ∈ q :: E, 0 < p.2) : 0 < totalWeight (q :: E) := by
  rw [totalWeight, List.foldl_cons]
  have hrest := foldl_add_le E (0 + q.2)
    (fun p hp => le_of_lt (h p (List.mem_cons_of_mem _ hp)))
  have hq : (0 : ℚ) < 0 + q.2 := by
    rw [zero_add]; exact h q (List.mem_cons_self q E)
  exact lt_of_lt_of_le hq hrest

theorem tiredStep_head (k : String) (v : ℚ) (l : List (String × ℚ)) (d : ℚ)
    (hd : 0 ≤ d) :
    ∃ v' l', objSet ((k, v) :: l) "tired" (objGetD ((k, v) :: l) "tired" + d)
        = (k, v') :: l' ∧ v ≤ v' := by
  by_cases h : k = "tired"
  · subst h
    refine ⟨v + d, l, ?_, le_add_of_nonneg_right hd⟩
    simp [objSet, objGetD]
  · refine ⟨v, objSet l "tired" (objGetD l "tired" + d), ?_, le_refl v⟩
    simp [objSet, objGetD, h]

theorem tiredEnsure_head (k : String) (v : ℚ) (l : List (String × ℚ)) :
    ∃ v' l', objSet ((k, v) :: l) "tired" (objGetD ((k, v) :: l) "tired")
        = (k, v') :: l' ∧ v ≤ v' := by
  have h := tiredStep_head k v l 0 (le_refl 0)
  simpa using h

theorem tiredCondStep_head (c : Prop) [Decidable c] (k : String) (v : ℚ)
    (l : List (String × ℚ)) (d : ℚ) (hd : 0 ≤ d) :
    ∃ v' l', (if c then objSet ((k, v) :: l) "tired"
                (objGetD ((k, v) :: l) "tired" + d)
              else (k, v) :: l) = (k, v') :: l' ∧ v ≤ v' := by
  by_cases hc : c
  · rw [if_pos hc]; exact tiredStep_head k v l d hd
  · rw [if_neg hc]; exact ⟨v, l, rfl, le_refl v⟩

theorem biasedScores_head (s : MultiModalEmotionState)
    (hne : collectEmotions s ≠ []) :
    ∃ k v l, biasedScores s = (k, v) :: l ∧ 0 < v := by
  obtain ⟨q, E₀, hE⟩ : ∃ q E₀, collectEmotions s = q :: E₀ := by
    cases hE : collectEmotions s with
    | nil => exact absurd hE hne
    | cons q E₀ => exact ⟨q, E₀, rfl⟩
  have hpos : ∀ p ∈ q :: E₀, 0 < p.2 := by
    intro p hp
    exact mem_collectEmotions_weight s p (by rw [hE]; exact hp)
  obtain ⟨v, r, hacc, hvle⟩ := accumScores_head E₀ q
    (fun p hp => le_of_lt (hpos p (List.mem_cons_of_mem _ hp)))
  have hv : 0 < v := lt_of_lt_of_le (hpos q (List.mem_cons_self q E₀)) hvle
  have ht : 0 < totalWeight (collectEmotions s) := by
    rw [hE]; exact totalWeight_pos E₀ q hpos
  have hnorm : normalizedScores s
      = (q.1, v / totalWeight (collectEmotions s))
          :: r.map (fun p => (p.1, p.2 / totalWeight (collectEmotions s))) := by
    rw [normalizedScores, hE, hacc, List.map_cons]
  obtain ⟨v0, l0, h0, h0le⟩ := tiredEnsure_head q.1
    (v / totalWeight (collectEmotions s))
    (r.map (fun p => (p.1, p.2 / totalWeight (collectEmotions s))))
  have he : ensuredScores s = (q.1, v0) :: l0 := by
    rw [ensuredScores, hnorm]; exact h0
  obtain ⟨v1, l1, h1, h1le⟩ := tiredCondStep_head (s.sessionDuration > 45 * 60)
    q.1 v0 l0 0.1 (by norm_num)
  have hb45 : bias45Scores s = (q.1, v1) :: l1 := by
    rw [bias45Scores, he]; exact h1
  obtain ⟨v2, l2, h2, h2le⟩ := tiredCondStep_head (s.sessionDuration > 90 * 60)
    q.1 v1 l1 0.15 (by norm_num)
  have hb : biasedScores s = (q.1, v2) :: l2 := by
    rw [biasedScores, hb45]; exact h2
  refine ⟨q.1, v2, l2, hb, ?_⟩
  have hdiv : 0 < v / totalWeight (collectEmotions s) := div_pos hv ht
  exact lt_of_lt_of_le hdiv (le_trans h0le (le_trans h1le h2le))

theorem recompute_merged_eq_argmax (s : MultiModalEmotionState) (now : Int)
    (hne : collectEmotions s ≠ []) :
    (recomputeMergedEmotion s now).mergedEmotion = (argmaxFirst (biasedScores s)).1 ∧
    (recomputeMergedEmotion s now).confidence = min (argmaxFirst (biasedScores s)).2 1 := by
  obtain ⟨k, v, l, hb, hv⟩ := biasedScores_head s hne
  rw [recomputeMergedEmotion, if_neg hne, hb,
    dominantOf_eq_argmaxFirst (k, v) l hv]
  exact ⟨rfl, rfl⟩

/-! ## Pointwise description of the fusion scores -/

theorem keyWeightSum_append (A B : List (String × ℚ)) (e : String) :
    keyWeightSum (A ++ B) e = keyWeightSum A e + keyWeightSum B e := by
  simp [keyWeightSum, List.filter_append]

theorem keyWeightSum_singleton (k : String) (w : ℚ) (e : String) :
    keyWeightSum [(k, w)] e = if k = e then w else 0 := by
  rw [keyWeightSum_cons, keyWeightSum_nil, add_zero]

theorem keyWeightSum_collect (s : MultiModalEmotionState) (e : String) :
    keyWeightSum (collectEmotions s) e = channelWeightTotal s e := by
  rw [collectEmotions, keyWeightSum_append, keyWeightSum_append,
    channelWeightTotal]
  cases s.facialEmotion <;> cases s.voiceEmotion <;> cases s.textEmotion <;>
    simp [keyWeightSum_singleton, keyWeightSum_nil, EMOTION_WEIGHTS_facial,
      EMOTION_WEIGHTS_voice, EMOTION_WEIGHTS_text]

theorem totalWeight_eq_sum (E : List (String × ℚ)) :
    totalWeight E = (E.map Prod.snd).sum := by
  have gen : ∀ (E' : List (String × ℚ)) (t : ℚ),
      E'.foldl (fun acc p => acc + p.2) t = t + (E'.map Prod.snd).sum := by
    intro E'
    induction E' with
    | nil => intro t; simp
    | cons q rest ih =>
        intro t
        rw [List.foldl_cons, ih, List.map_cons, List.sum_cons]
        ring
  rw [totalWeight, gen]
  simp

theorem totalWeight_collect (s : MultiModalEmotionState) :
    totalWeight (collectEmotions s) = presentWeightSum s := by
  rw [totalWeight_eq_sum, collectEmotions, presentWeightSum]
  cases s.facialEmotion <;> cases s.voiceEmotion <;> cases s.textEmotion
  all_goals simp [EMOTION_WEIGHTS_facial, EMOTION_WEIGHTS_voice,
    EMOTION_WEIGHTS_text]
  all_goals ring

theorem normalizedScores_pointwise (s : MultiModalEmotionState) (e : String) :
    objGetD (normalizedScores s) e
      = channelWeightTotal s e / presentWeightSum s := by
  rw [normalizedScores, objGetD_map_div, objGetD_accumScores,
    keyWeightSum_collect, totalWeight_collect]

theorem biasedScores_tired (s : MultiModalEmotionState) :
    objGetD (biasedScores s) "tired"
      = objGetD (normalizedScores s) "tired"
        + (if s.sessionDuration > 45 * 60 then (0.1 : ℚ) else 0)
        + (if s.sessionDuration > 90 * 60 then (0.15 : ℚ) else 0) := by
  have hens : objGetD (ensuredScores s) "tired"
      = objGetD (normalizedScores s) "tired" := by
    rw [ensuredScores, objGetD_objSet_self]
  have h45 : objGetD (bias45Scores s) "tired"
      = objGetD (normalizedScores s) "tired"
        + (if s.sessionDuration > 45 * 60 then (0.1 : ℚ) else 0) := by
    rw [bias45Scores]
    by_cases h1 : s.sessionDuration > 45 * 60
    · rw [if_pos h1, if_pos h1, objGetD_objSet_self, hens]
    · rw [if_neg h1, if_neg h1, hens, add_zero]
  rw [biasedScores]
  by_cases h2 : s.sessionDuration > 90 * 60
  · rw [if_pos h2, if_pos h2, objGetD_objSet_self, h45]
  · rw [if_neg h2, if_neg h2, h45, add_zero]

theorem biasedScores_other (s : MultiModalEmotionState) (e : String)
    (he : e ≠ "tired") :
    objGetD (biasedScores s) e = objGetD (normalizedScores s) e := by
  have hens : objGetD (ensuredScores s) e = objGetD (normalizedScores s) e := by
    rw [ensuredScores, objGetD_objSet_other _ _ _ _ he]
  have h45 : objGetD (bias45Scores s) e = objGetD (normalizedScores s) e := by
    rw [bias45Scores]
    by_cases h1 : s.sessionDuration > 45 * 60
    · rw [if_pos h1, objGetD_objSet_other _ _ _ _ he, hens]
    · rw [if_neg h1, hens]
  rw [biasedScores]
  by_cases h2 : s.sessionDuration > 90 * 60
  · rw [if_pos h2, objGetD_objSet_other _ _ _ _ he, h45]
  · rw [if_neg h2, h45]

/-! ## Claim C3 -/

/-- C3: with at least one channel present, each label's normalized total is
the sum of the weights of the present channels carrying it divided by the
sum of present-channel weights; the fatigue bias then adds 0.1 to `tired`
above 45 minutes and a further 0.15 above 90 minutes (creating the bucket
at 0 if absent, additively, with no renormalization — every other label's
total is exactly its normalized value); the winner is the strictly maximal
total (first encountered wins ties) and the exposed confidence is the
winner's total capped at 1. -/
theorem fusion_bias_winner_confidence (s : MultiModalEmotionState) (now : Int)
    (hne : collectEmotions s ≠ []) :
    objGetD (biasedScores s) "tired"
      = channelWeightTotal s "tired" / presentWeightSum s
        + (if s.sessionDuration > 45 * 60 then (0.1 : ℚ) else 0)
        + (if s.sessionDuration > 90 * 60 then (0.15 : ℚ) else 0) ∧
    (∀ e, e ≠ "tired" →
      objGetD (biasedScores s) e = channelWeightTotal s e / presentWeightSum s) ∧
    (recomputeMergedEmotion s now).mergedEmotion
      = (argmaxFirst (biasedScores s)).1 ∧
    (recomputeMergedEmotion s now).confidence
      = min (argmaxFirst (biasedScores s)).2 1 := by
  refine ⟨?_, ?_, ?_, ?_⟩
  · rw [biasedScores_tired, normalizedScores_pointwise]
  · intro e he
    rw [biasedScores_other s e he, normalizedScores_pointwise]
  · exact (recompute_merged_eq_argmax s now hne).1
  · exact (recompute_merged_eq_argmax s now hne).2

/-- Witness for C3: a two-channel state (facial `stressed`, voice `happy`)
with a 50-minute session. -/
theorem fusion_bias_winner_confidence_witness :
    collectEmotions
      { initialState 0 with
        facialEmotion := some { emotion := "stressed", confidence := 1, history := [], lastUpdate := 0 },
        voiceEmotion := some { emotion := "happy", confidence := 1, tone := "calm", timestamp := 0 },
        sessionDuration := 3000 } ≠ [] ∧
    (recomputeMergedEmotion
      { initialState 0 with
        facialEmotion := some { emotion := "stressed", confidence := 1, history := [], lastUpdate := 0 },
        voiceEmotion := some { emotion := "happy", confidence := 1, tone := "calm", timestamp := 0 },
        sessionDuration := 3000 } 7).mergedEmotion
      = (argmaxFirst (biasedScores
          { initialState 0 with
            facialEmotion := some { emotion := "stressed", confidence := 1, history := [], lastUpdate := 0 },
            voiceEmotion := some { emotion := "happy", confidence := 1, tone := "calm", timestamp := 0 },
            sessionDuration := 3000 })).1 :=
  ⟨by decide,
    (fusion_bias_winner_confidence
      { initialState 0 with
        facialEmotion := some { emotion := "stressed", confidence := 1, history := [], lastUpdate := 0 },
        voiceEmotion := some { emotion := "happy", confidence := 1, tone := "calm", timestamp := 0 },
        sessionDuration := 3000 } 7 (by decide)).2.2.1⟩

/-! ## Pointwise description of the smoother maps -/

theorem countLabel_cons (d : FacialEmotionData) (rest : List FacialEmotionData)
    (l : String) :
    countLabel (d :: rest) l
      = (if d.emotion = l then 1 else 0) + countLabel rest l := by
  by_cases h : d.emotion = l <;> simp [countLabel, List.filter_cons, h]
  omega

theorem countLabel_head_pos (d : FacialEmotionData)
    (rest : List FacialEmotionData) : 1 ≤ countLabel (d :: rest) d.emotion := by
  rw [countLabel_cons, if_pos rfl]
  omega

theorem keyWeightSum_count (hist : List FacialEmotionData) (l : String) :
    keyWeightSum (hist.map fun d => (d.emotion, (1 : ℚ))) l
      = (countLabel hist l : ℚ) := by
  induction hist with
  | nil => simp [keyWeightSum_nil, countLabel]
  | cons d rest ih =>
      rw [List.map_cons, keyWeightSum_cons, countLabel_cons, ih]
      by_cases h : d.emotion = l <;> simp [h]

theorem keyWeightSum_conf (hist : List FacialEmotionData) (l : String) :
    keyWeightSum (hist.map fun d => (d.emotion, d.confidence)) l
      = labelConfSum hist l := by
  induction hist with
  | nil => simp [keyWeightSum_nil, labelConfSum]
  | cons d rest ih =>
      rw [List.map_cons, keyWeightSum_cons, ih]
      by_cases h : d.emotion = l <;>
        simp [labelConfSum, List.filter_cons, h]

theorem objGetD_emotionCounts (hist : List FacialEmotionData) (l : String) :
    objGetD (emotionCounts hist) l = (countLabel hist l : ℚ) := by
  rw [emotionCounts, objGetD_accumScores, keyWeightSum_count]

theorem objGetD_emotionConfidences (hist : List FacialEmotionData) (l : String) :
    objGetD (emotionConfidences hist) l = labelConfSum hist l := by
  rw [emotionConfidences, objGetD_accumScores, keyWeightSum_conf]

theorem mem_of_countLabel_pos (hist : List FacialEmotionData) (l : String)
    (h : 0 < countLabel hist l) :
    l ∈ hist.map FacialEmotionData.emotion := by
  rw [countLabel] at h
  rw [List.length_pos] at h
  obtain ⟨x, hx⟩ := List.exists_mem_of_ne_nil _ h
  have hx' := List.mem_filter.1 hx
  have hx2 : x.emotion = l := by simpa using hx'.2
  exact hx2 ▸ List.mem_map_of_mem FacialEmotionData.emotion hx'.1

theorem labelConfSum_le_count (hist : List FacialEmotionData) (l : String)
    (hconf : ∀ d ∈ hist, d.confidence ≤ 1) :
    labelConfSum hist l ≤ (countLabel hist l : ℚ) := by
  induction hist with
  | nil => simp [labelConfSum, countLabel]
  | cons d rest ih =>
      have hrest := ih (fun d' hd' => hconf d' (List.mem_cons_of_mem _ hd'))
      rw [countLabel_cons]
      by_cases h : d.emotion = l
      · have hsum : labelConfSum (d :: rest) l
            = d.confidence + labelConfSum rest l := by
          simp [labelConfSum, List.filter_cons, h]
        rw [hsum, if_pos h]
        push_cast
        have hd1 := hconf d (List.mem_cons_self d rest)
        linarith
      · have hsum : labelConfSum (d :: rest) l = labelConfSum rest l := by
          simp [labelConfSum, List.filter_cons, h]
        rw [hsum, if_neg h]
        push_cast
        linarith

theorem keysOf_emotionCounts (hist : List FacialEmotionData) (l : String) :
    l ∈ keysOf (emotionCounts hist) ↔ l ∈ hist.map FacialEmotionData.emotion := by
  rw [emotionCounts, mem_keysOf_accumScores]
  simp [List.map_map, Function.comp]

/-! ## Claim C4 -/

/-- C4: over a non-empty window in which `lbl` strictly dominates every
other occurring label by occurrence count, `getSmoothedEmotion` returns
`lbl` with confidence equal to the arithmetic mean of the confidences
recorded for `lbl` in the window (given all recorded confidences lie in
[0,1], so that the `min(·, 1)` cap is inert). -/
theorem smoother_majority_mean (hist : List FacialEmotionData) (now : Int)
    (lbl : String) (hne : hist ≠ [])
    (hconf : ∀ d ∈ hist, 0 ≤ d.confidence ∧ d.confidence ≤ 1)
    (hdom : ∀ l' ∈ hist.map FacialEmotionData.emotion, l' ≠ lbl →
      countLabel hist l' < countLabel hist lbl) :
    (getSmoothedEmotion hist now).emotion = lbl ∧
    (getSmoothedEmotion hist now).confidence
      = labelConfSum hist lbl / (countLabel hist lbl : ℚ) := by
  obtain ⟨d, rest, rfl⟩ : ∃ d rest, hist = d :: rest := by
    cases hist with
    | nil => exact absurd rfl hne
    | cons d rest => exact ⟨d, rest, rfl⟩
  have hc1 : 1 ≤ countLabel (d :: rest) lbl := by
    by_cases h : d.emotion = lbl
    · rw [← h]; exact countLabel_head_pos d rest
    · have hmem : d.emotion ∈ (d :: rest).map FacialEmotionData.emotion := by
        simp
      have hlt := hdom d.emotion hmem h
      have h0 := countLabel_head_pos d rest
      omega
  have hmem_lbl : lbl ∈ (d :: rest).map FacialEmotionData.emotion :=
    mem_of_countLabel_pos _ _ (by omega)
  have hkey : lbl ∈ keysOf (emotionCounts (d :: rest)) :=
    (keysOf_emotionCounts _ _).2 hmem_lbl
  have hpair : (lbl, (countLabel (d :: rest) lbl : ℚ)) ∈ emotionCounts (d :: rest) := by
    have h := getD_mem_of_mem_keysOf _ _ hkey
    rwa [objGetD_emotionCounts] at h
  have hnd : (keysOf (emotionCounts (d :: rest))).Nodup := by
    rw [emotionCounts]; exact nodup_keysOf_accumScores _
  have hall : ∀ p ∈ emotionCounts (d :: rest),
      p = (lbl, (countLabel (d :: rest) lbl : ℚ)) ∨
      p.2 < (countLabel (d :: rest) lbl : ℚ) := by
    rintro ⟨p1, p2⟩ hp
    dsimp only
    have hval : p2 = objGetD (emotionCounts (d :: rest)) p1 := by
      simpa using val_eq_getD_of_mem _ _ hnd hp
    have hkeymem : p1 ∈ (d :: rest).map FacialEmotionData.emotion := by
      refine (keysOf_emotionCounts _ _).1 ?_
      exact List.mem_map_of_mem Prod.fst hp
    by_cases hpe : p1 = lbl
    · left
      subst hpe
      have hv2 : p2 = (countLabel (d :: rest) p1 : ℚ) := by
        rw [hval, objGetD_emotionCounts]
      rw [hv2]
    · right
      have hv2 : p2 = (countLabel (d :: rest) p1 : ℚ) := by
        rw [hval, objGetD_emotionCounts]
      rw [hv2]
      exact_mod_cast hdom p1 hkeymem hpe
  have hdomEq : dominantOf (emotionCounts (d :: rest))
      = (lbl, (countLabel (d :: rest) lbl : ℚ)) := by
    rw [dominantOf]
    apply maxFold_eq_of_strict _ _ _ _ hpair _ hall
    show (0 : ℚ) < (countLabel (d :: rest) lbl : ℚ)
    exact_mod_cast hc1
  have hne' : (d :: rest) ≠ [] := List.cons_ne_nil d rest
  rw [getSmoothedEmotion, if_neg hne']
  have hcpos : (0 : ℚ) < (countLabel (d :: rest) lbl : ℚ) := by
    exact_mod_cast hc1
  have hle : labelConfSum (d :: rest) lbl / (countLabel (d :: rest) lbl : ℚ) ≤ 1 :=
    (div_le_one hcpos).2
      (labelConfSum_le_count _ _ (fun d' hd' => (hconf d' hd').2))
  constructor
  · simp only [hdomEq]
  · simp only [hdomEq, objGetD_emotionCounts, objGetD_emotionConfidences]
    exact min_eq_left hle

/-- Witness for C4: a three-entry window in which `happy` (confidences 0.8
and 0.6) strictly dominates `tired`; the smoothed result is `happy` with
mean confidence. -/
theorem smoother_majority_mean_witness :
    (getSmoothedEmotion
      [{ emotion := "happy", confidence := 0.8,
         expressions := { neutral := 1, happy := 0, sad := 0, angry := 0, fearful := 0, disgusted := 0, surprised := 0 }, timestamp := 0 },
       { emotion := "happy", confidence := 0.6,
         expressions := { neutral := 1, happy := 0, sad := 0, angry := 0, fearful := 0, disgusted := 0, surprised := 0 }, timestamp := 1 },
       { emotion := "tired", confidence := 0.9,
         expressions := { neutral := 1, happy := 0, sad := 0, angry := 0, fearful := 0, disgusted := 0, surprised := 0 }, timestamp := 2 }] 9).emotion
      = "happy" ∧
    (getSmoothedEmotion
      [{ emotion := "happy", confidence := 0.8,
         expressions := { neutral := 1, happy := 0, sad := 0, angry := 0, fearful := 0, disgusted := 0, surprised := 0 }, timestamp := 0 },
       { emotion := "happy", confidence := 0.6,
         expressions := { neutral := 1, happy := 0, sad := 0, angry := 0, fearful := 0, disgusted := 0, surprised := 0 }, timestamp := 1 },
       { emotion := "tired", confidence := 0.9,
         expressions := { neutral := 1, happy := 0, sad := 0, angry := 0, fearful := 0, disgusted := 0, surprised := 0 }, timestamp := 2 }] 9).confidence
      = labelConfSum
          [{ emotion := "happy", confidence := 0.8,
             expressions := { neutral := 1, happy := 0, sad := 0, angry := 0, fearful := 0, disgusted := 0, surprised := 0 }, timestamp := 0 },
           { emotion := "happy", confidence := 0.6,
             expressions := { neutral := 1, happy := 0, sad := 0, angry := 0, fearful := 0, disgusted := 0, surprised := 0 }, timestamp := 1 },
           { emotion := "tired", confidence := 0.9,
             expressions := { neutral := 1, happy := 0, sad := 0, angry := 0, fearful := 0, disgusted := 0, surprised := 0 }, timestamp := 2 }] "happy"
        / (countLabel
            [{ emotion := "happy", confidence := 0.8,
               expressions := { neutral := 1, happy := 0, sad := 0, angry := 0, fearful := 0, disgusted := 0, surprised := 0 }, timestamp := 0 },
             { emotion := "happy", confidence := 0.6,
               expressions := { neutral := 1, happy := 0, sad := 0, angry := 0, fearful := 0, disgusted := 0, surprised := 0 }, timestamp := 1 },
             { emotion := "tired", confidence := 0.9,
               expressions := { neutral := 1, happy := 0, sad := 0, angry := 0, fearful := 0, disgusted := 0, surprised := 0 }, timestamp := 2 }] "happy" : ℚ) :=
  smoother_majority_mean _ 9 "happy" (by decide)
    (by intro x hx; fin_cases hx <;> norm_num) (by decide)

/-! ## Claim C5 -/

/-- C5: neither the smoother's current-value query nor the fusion recompute
raises (both are total Lean functions); the empty window yields the
`neutral`/0.5 default, and a fusion state with zero channels present
recomputes to `mergedEmotion = 'neutral'` with confidence 0.5. -/
theorem smoother_and_fusion_defaults :
    (∀ now : Int, getSmoothedEmotion [] now =
      { emotion := "neutral", confidence := 1/2, history := [], lastUpdate := now }) ∧
    (∀ (s : MultiModalEmotionState) (now : Int),
      s.facialEmotion = none → s.voiceEmotion = none → s.textEmotion = none →
      (recomputeMergedEmotion s now).mergedEmotion = "neutral" ∧
      (recomputeMergedEmotion s now).confidence = 1/2) := by
  constructor
  · intro now
    simp [getSmoothedEmotion]
  · intro s now hf hv ht
    simp [recomputeMergedEmotion, collectEmotions, hf, hv, ht]

/-- Witness for C5 at a concrete zero-channel state. -/
theorem smoother_and_fusion_defaults_witness :
    (initialState 0).facialEmotion = none ∧
    (initialState 0).voiceEmotion = none ∧
    (initialState 0).textEmotion = none ∧
    (recomputeMergedEmotion (initialState 0) 0).mergedEmotion = "neutral" ∧
    (recomputeMergedEmotion (initialState 0) 0).confidence = 1/2 :=
  ⟨rfl, rfl, rfl,
    (smoother_and_fusion_defaults.2 (initialState 0) 0 rfl rfl rfl).1,
    (smoother_and_fusion_defaults.2 (initialState 0) 0 rfl rfl rfl).2⟩

/-! ## Claim C2 -/

theorem recompute_single (s : MultiModalEmotionState) (now : Int) (L : String)
    (w : ℚ) (hE : collectEmotions s = [(L, w)]) (hw : 0 < w) :
    (recomputeMergedEmotion s now).mergedEmotion = L ∧
    (recomputeMergedEmotion s now).confidence = 1 := by
  have hne : collectEmotions s ≠ [] := by
    rw [hE]; exact List.cons_ne_nil _ _
  have htot : totalWeight [(L, w)] = w := by simp [totalWeight]
  have hacc : accumScores [(L, w)] = [(L, w)] := by
    simp [accumScores, accumAdd, objSet, objGetD]
  have hnorm : normalizedScores s = [(L, 1)] := by
    rw [normalizedScores, hE, hacc, htot, List.map_cons, List.map_nil]
    rw [show w / w = 1 from div_self (ne_of_gt hw)]
  rw [recomputeMergedEmotion, if_neg hne]
  by_cases hL : L = "tired" <;>
    by_cases h1 : s.sessionDuration > 45 * 60 <;>
    by_cases h2 : s.sessionDuration > 90 * 60 <;>
    first
    | (exfalso; rw [gt_iff_lt, not_lt] at h1; rw [gt_iff_lt] at h2; linarith)
    | (constructor <;>
        · simp only [biasedScores, bias45Scores, ensuredScores, hnorm,
            if_pos h1, if_pos h2]
          subst hL
          norm_num [objSet, objGetD, dominantOf, maxFold, min_def])
    | (constructor <;>
        · simp only [biasedScores, bias45Scores, ensuredScores, hnorm,
            if_pos h1, if_neg h2]
          subst hL
          norm_num [objSet, objGetD, dominantOf, maxFold, min_def])
    | (constructor <;>
        · simp only [biasedScores, bias45Scores, ensuredScores, hnorm,
            if_neg h1, if_neg h2]
          subst hL
          norm_num [objSet, objGetD, dominantOf, maxFold, min_def])
    | (constructor <;>
        · simp only [biasedScores, bias45Scores, ensuredScores, hnorm,
            if_pos h1, if_pos h2]
          norm_num [objSet, objGetD, dominantOf, maxFold, min_def, hL])
    | (constructor <;>
        · simp only [biasedScores, bias45Scores, ensuredScores, hnorm,
            if_pos h1, if_neg h2]
          norm_num [objSet, objGetD, dominantOf, maxFold, min_def, hL])
    | (constructor <;>
        · simp only [biasedScores, bias45Scores, ensuredScores, hnorm,
            if_neg h1, if_neg h2]
          norm_num [objSet, objGetD, dominantOf, maxFold, min_def, hL])

/-- C2: with exactly one channel present the recomputed merged label equals
that channel's label and the merged confidence equals 1 (the channel's
weight normalized by itself, capped at 1), for every session duration. -/
theorem single_channel_fusion (s : MultiModalEmotionState) (now : Int) :
    (∀ f, s.facialEmotion = some f → s.voiceEmotion = none →
      s.textEmotion = none →
      (recomputeMergedEmotion s now).mergedEmotion = f.emotion ∧
      (recomputeMergedEmotion s now).confidence = 1) ∧
    (∀ v, s.facialEmotion = none → s.voiceEmotion = some v →
      s.textEmotion = none →
      (recomputeMergedEmotion s now).mergedEmotion = v.emotion ∧
      (recomputeMergedEmotion s now).confidence = 1) ∧
    (∀ t, s.facialEmotion = none → s.voiceEmotion = none →
      s.textEmotion = some t →
      (recomputeMergedEmotion s now).mergedEmotion = t.emotion ∧
      (recomputeMergedEmotion s now).confidence = 1) := by
  refine ⟨fun f hf hv ht => ?_, fun v hf hv ht => ?_, fun t hf hv ht => ?_⟩
  · exact recompute_single s now f.emotion EMOTION_WEIGHTS_facial
      (by rw [collectEmotions, hf, hv, ht]; rfl) (by norm_num [EMOTION_WEIGHTS_facial])
  · exact recompute_single s now v.emotion EMOTION_WEIGHTS_voice
      (by rw [collectEmotions, hf, hv, ht]; rfl) (by norm_num [EMOTION_WEIGHTS_voice])
  · exact recompute_single s now t.emotion EMOTION_WEIGHTS_text
      (by rw [collectEmotions, hf, hv, ht]; rfl) (by norm_num [EMOTION_WEIGHTS_text])

/-- Witness for C2: a fusion state whose only channel is a voice reading
labelled `happy`, with a long session. -/
theorem single_channel_fusion_witness :
    ({ initialState 0 with
        voiceEmotion := some { emotion := "happy", confidence := 1, tone := "calm", timestamp := 0 },
        sessionDuration := 3000 } : MultiModalEmotionState).facialEmotion = none ∧
    (recomputeMergedEmotion
      { initialState 0 with
        voiceEmotion := some { emotion := "happy", confidence := 1, tone := "calm", timestamp := 0 },
        sessionDuration := 3000 } 5).mergedEmotion = "happy" ∧
    (recomputeMergedEmotion
      { initialState 0 with
        voiceEmotion := some { emotion := "happy", confidence := 1, tone := "calm", timestamp := 0 },
        sessionDuration := 3000 } 5).confidence = 1 := by
  refine ⟨rfl, ?_, ?_⟩
  · exact ((single_channel_fusion
      { initialState 0 with
        voiceEmotion := some { emotion := "happy", confidence := 1, tone := "calm", timestamp := 0 },
        sessionDuration := 3000 } 5).2.1
      { emotion := "happy", confidence := 1, tone := "calm", timestamp := 0 }
      rfl rfl rfl).1
  · exact ((single_channel_fusion
      { initialState 0 with
        voiceEmotion := some { emotion := "happy", confidence := 1, tone := "calm", timestamp := 0 },
        sessionDuration := 3000 } 5).2.1
      { emotion := "happy", confidence := 1, tone := "calm", timestamp := 0 }
      rfl rfl rfl).2

/-! ## Claim C6 -/

theorem maxFold_self_cons (p : String × ℚ) (l : List (String × ℚ)) :
    maxFold p (p :: l) = maxFold p l := by
  rw [maxFold_cons, if_neg (lt_irrefl p.2)]

theorem findDominantExpr_eq_argmaxFirst (e : FacialExpressions) :
    findDominantExpr e = argmaxFirst (expressionsEntries e) :=
  maxFold_self_cons ("neutral", e.neutral) _

theorem findDominantExpr_default (e : FacialExpressions)
    (h : ∀ p ∈ expressionsEntries e, p.2 ≤ e.neutral) :
    (findDominantExpr e).1 = "neutral" := by
  have hstay := maxFold_stay (expressionsEntries e) ("neutral", e.neutral)
    (fun p hp => not_lt.2 (h p hp))
  rw [findDominantExpr, hstay]

theorem mapRawEmotion_eq_lookup (raw : String) :
    mapRawEmotion raw = lookupCanonical raw := by
  by_cases h1 : raw = "happy" <;> by_cases h2 : raw = "sad" <;>
    by_cases h3 : raw = "angry" <;> by_cases h4 : raw = "fearful" <;>
    by_cases h5 : raw = "surprised" <;>
    simp_all [mapRawEmotion, lookupCanonical, rawToCanonical, List.find?,
      eq_comm]

/-- C6: `processFaceExpressions` selects the raw category with maximal
probability (first encountered wins ties, via `argmaxFirst`), defaults to
`neutral` when no category strictly exceeds the neutral category's own
score, translates the winner through the fixed raw→canonical lookup, and
records the winning probability as the entry's confidence. -/
theorem process_face_mapping (e : FacialExpressions) (now : Int) :
    findDominantExpr e = argmaxFirst (expressionsEntries e) ∧
    ((∀ p ∈ expressionsEntries e, p.2 ≤ e.neutral) →
      (findDominantExpr e).1 = "neutral") ∧
    processFaceExpressions e now =
      { emotion := lookupCanonical (findDominantExpr e).1
        confidence := (findDominantExpr e).2
        expressions := e
        timestamp := now } := by
  refine ⟨findDominantExpr_eq_argmaxFirst e, findDominantExpr_default e, ?_⟩
  rw [processFaceExpressions, mapRawEmotion_eq_lookup]

/-- Witness for C6: a distribution in which `surprised` ties `neutral` at
0.5 and nothing strictly exceeds `neutral`, so the winner defaults to
`neutral`. -/
theorem process_face_mapping_witness :
    (∀ p ∈ expressionsEntries
        { neutral := 0.5, happy := 0.1, sad := 0.1, angry := 0.1,
          fearful := 0.1, disgusted := 0.1, surprised := 0.5 },
      p.2 ≤ ({ neutral := 0.5, happy := 0.1, sad := 0.1, angry := 0.1,
               fearful := 0.1, disgusted := 0.1, surprised := 0.5 } :
               FacialExpressions).neutral) ∧
    (findDominantExpr
        { neutral := 0.5, happy := 0.1, sad := 0.1, angry := 0.1,
          fearful := 0.1, disgusted := 0.1, surprised := 0.5 }).1 = "neutral" :=
  ⟨by intro p hp; fin_cases hp <;> norm_num,
    (process_face_mapping
      { neutral := 0.5, happy := 0.1, sad := 0.1, angry := 0.1,
        fearful := 0.1, disgusted := 0.1, surprised := 0.5 } 0).2.1
      (by intro p hp; fin_cases hp <;> norm_num)⟩

/-! ## Claim C9 -/

/-- C9: `getResponseGuidelines` is a pure deterministic function of
`mergedEmotion` only (confidence is never consulted: two states agreeing on
`mergedEmotion` yield identical output), and the output follows the fixed
dispatch table for the five groups of labels, with every label outside the
seven named ones getting the professional default. -/
theorem guidelines_pure_table :
    (∀ s t : MultiModalEmotionState, s.mergedEmotion = t.mergedEmotion →
      getResponseGuidelines s = getResponseGuidelines t) ∧
    (∀ e, e = "happy" ∨ e = "focused" →
      (guidelinesFor e).tone = "energetic" ∧
      (guidelinesFor e).verbosity = "normal" ∧
      (guidelinesFor e).detail = "comprehensive" ∧
      (guidelinesFor e).breakNeeded = false ∧
      (guidelinesFor e).encouragement = true) ∧
    (∀ e, e = "stressed" ∨ e = "anxious" →
      (guidelinesFor e).tone = "calm" ∧
      (guidelinesFor e).verbosity = "concise" ∧
      (guidelinesFor e).detail = "simplified" ∧
      (guidelinesFor e).breakNeeded = true ∧
      (guidelinesFor e).encouragement = true) ∧
    (∀ e, e = "tired" ∨ e = "sad" →
      (guidelinesFor e).tone = "supportive" ∧
      (guidelinesFor e).verbosity = "minimal" ∧
      (guidelinesFor e).detail = "simplified" ∧
      (guidelinesFor e).breakNeeded = true ∧
      (guidelinesFor e).encouragement = true) ∧
    ((guidelinesFor "confused").tone = "patient" ∧
      (guidelinesFor "confused").verbosity = "detailed" ∧
      (guidelinesFor "confused").detail = "step-by-step" ∧
      (guidelinesFor "confused").breakNeeded = false ∧
      (guidelinesFor "confused").encouragement = true) ∧
    (∀ e, e ≠ "happy" → e ≠ "focused" → e ≠ "stressed" → e ≠ "anxious" →
      e ≠ "tired" → e ≠ "sad" → e ≠ "confused" →
      (guidelinesFor e).tone = "professional" ∧
      (guidelinesFor e).verbosity = "normal" ∧
      (guidelinesFor e).detail = "comprehensive" ∧
      (guidelinesFor e).breakNeeded = false ∧
      (guidelinesFor e).encouragement = false) := by
  refine ⟨?_, ?_, ?_, ?_, ?_, ?_⟩
  · intro s t h
    rw [getResponseGuidelines, getResponseGuidelines, h]
  · rintro e (rfl | rfl) <;> simp [guidelinesFor]
  · rintro e (rfl | rfl) <;> simp [guidelinesFor]
  · rintro e (rfl | rfl) <;> simp [guidelinesFor]
  · refine ⟨?_, ?_, ?_, ?_, ?_⟩ <;> simp [guidelinesFor]
  · intro e h1 h2 h3 h4 h5 h6 h7
    simp [guidelinesFor, h1, h2, h3, h4, h5, h6, h7]

/-- Witness for C9: two fusion states agreeing on `mergedEmotion` give
identical guidelines, and the unlisted label `calm` gets the professional
default. -/
theorem guidelines_pure_table_witness :
    getResponseGuidelines (initialState 0)
      = getResponseGuidelines { initialState 5 with confidence := 1 } ∧
    (guidelinesFor "calm").tone = "professional" ∧
    (guidelinesFor "calm").encouragement = false :=
  ⟨guidelines_pure_table.1 (initialState 0)
      { initialState 5 with confidence := 1 } rfl,
    (guidelines_pure_table.2.2.2.2.2 "calm" (by simp) (by simp) (by simp)
      (by simp) (by simp) (by simp) (by simp)).1,
    (guidelines_pure_table.2.2.2.2.2 "calm" (by simp) (by simp) (by simp)
      (by simp) (by simp) (by simp) (by simp)).2.2.2.2⟩

/-! ## Claim C8 -/

/-- C8: `reset()` restores the `FusionState` exactly to its creation-time
defaults: all three channels absent, sessionDuration 0, mergedEmotion
`neutral`, confidence 0.5, empty history; the state after `reset` equals
the state at creation (same `Date.now()` stamp). -/
theorem reset_restores_initial :
    ∀ now : Int,
      reset now = initialState now ∧
      (reset now).facialEmotion = none ∧
      (reset now).voiceEmotion = none ∧
      (reset now).textEmotion = none ∧
      (reset now).sessionDuration = 0 ∧
      (reset now).mergedEmotion = "neutral" ∧
      (reset now).confidence = 1/2 ∧
      (reset now).emotionHistory = [] :=
  fun _ => ⟨rfl, rfl, rfl, rfl, rfl, rfl, rfl, rfl⟩

/-! ## Claim C7 -/

theorem recompute_history_le (s : MultiModalEmotionState) (now : Int)
    (h : s.emotionHistory.length ≤ 50) :
    (recomputeMergedEmotion s now).emotionHistory.length ≤ 50 := by
  rw [recomputeMergedEmotion]
  by_cases hc : collectEmotions s = []
  · rw [if_pos hc]; exact h
  · rw [if_neg hc]
    exact length_pushBounded_le 50 s.emotionHistory _ h

theorem applyOp_history_le (s : MultiModalEmotionState) (op : FusionOp)
    (h : s.emotionHistory.length ≤ 50) :
    (applyOp s op).emotionHistory.length ≤ 50 := by
  cases op with
  | setFacial f now => exact recompute_history_le _ now h
  | setVoice v now => exact recompute_history_le _ now h
  | setText t now => exact recompute_history_le _ now h
  | setDuration secs now => exact recompute_history_le _ now h
  | doReset now => simp [applyOp, reset]

theorem runOps_history_le (ops : List FusionOp) :
    ∀ s : MultiModalEmotionState, s.emotionHistory.length ≤ 50 →
      (runOps s ops).emotionHistory.length ≤ 50 := by
  induction ops with
  | nil => intro s h; exact h
  | cons op rest ih =>
      intro s h
      exact ih (applyOp s op) (applyOp_history_le s op h)

theorem ingest_window_le (hist : List FacialEmotionData)
    (e : FacialExpressions) (now : Int) (h : hist.length ≤ 10) :
    (ingestFacial hist e now).length ≤ 10 :=
  length_pushBounded_le 10 hist _ h

theorem runSmoother_window_le (ops : List SmootherOp) :
    ∀ hist : List FacialEmotionData, hist.length ≤ 10 →
      (runSmoother hist ops).length ≤ 10 := by
  induction ops with
  | nil => intro hist h; exact h
  | cons op rest ih =>
      intro hist h
      cases op with
      | ingest e now => exact ih _ (ingest_window_le hist e now h)
      | clear => exact ih [] (by simp)

theorem ingest_fifo (hist : List FacialEmotionData) (e : FacialExpressions)
    (now : Int) (h : hist.length = 10) :
    ingestFacial hist e now = hist.drop 1 ++ [processFaceExpressions e now] :=
  pushBounded_eq_drop 10 hist _ h (by norm_num)

theorem recompute_fifo (s : MultiModalEmotionState) (now : Int)
    (h : s.emotionHistory.length = 50) (hne : collectEmotions s ≠ []) :
    (recomputeMergedEmotion s now).emotionHistory
      = s.emotionHistory.drop 1
        ++ [{ emotion := (recomputeMergedEmotion s now).mergedEmotion,
              source := "merged", timestamp := now }] := by
  rw [recomputeMergedEmotion, if_neg hne]
  exact pushBounded_eq_drop 50 s.emotionHistory _ h (by norm_num)

/-- C7: starting from creation, every operation sequence keeps the fusion
history at ≤ 50 entries and the smoothing window at ≤ 10 entries; at
capacity both buffers evict their oldest entry first: an ingest into a full
window drops its first entry, and a merge onto a full history drops its
earliest entry, appending the new one at the end. -/
theorem bounded_fifo_buffers :
    (∀ (now : Int) (ops : List FusionOp),
      (runOps (initialState now) ops).emotionHistory.length ≤ 50) ∧
    (∀ ops : List SmootherOp, (runSmoother [] ops).length ≤ 10) ∧
    (∀ (hist : List FacialEmotionData) (e : FacialExpressions) (now : Int),
      hist.length = 10 →
      ingestFacial hist e now = hist.drop 1 ++ [processFaceExpressions e now]) ∧
    (∀ (s : MultiModalEmotionState) (now : Int),
      s.emotionHistory.length = 50 → collectEmotions s ≠ [] →
      (recomputeMergedEmotion s now).emotionHistory
        = s.emotionHistory.drop 1
          ++ [{ emotion := (recomputeMergedEmotion s now).mergedEmotion,
                source := "merged", timestamp := now }]) := by
  refine ⟨?_, ?_, ?_, ?_⟩
  · intro now ops
    exact runOps_history_le ops (initialState now) (by simp [initialState])
  · intro ops
    exact runSmoother_window_le ops [] (by simp)
  · exact ingest_fifo
  · exact recompute_fifo

/-- Witness for C7: a full 10-entry window loses its first entry on the
11th ingest, and a full 50-entry history loses its earliest entry on the
next merge. -/
theorem bounded_fifo_buffers_witness :
    (List.replicate 10
      ({ emotion := "happy", confidence := 1,
         expressions := { neutral := 1, happy := 0, sad := 0, angry := 0,
                          fearful := 0, disgusted := 0, surprised := 0 },
         timestamp := 0 } : FacialEmotionData)).length = 10 ∧
    ingestFacial
        (List.replicate 10
          ({ emotion := "happy", confidence := 1,
             expressions := { neutral := 1, happy := 0, sad := 0, angry := 0,
                              fearful := 0, disgusted := 0, surprised := 0 },
             timestamp := 0 } : FacialEmotionData))
        { neutral := 1, happy := 0, sad := 0, angry := 0, fearful := 0,
          disgusted := 0, surprised := 0 } 3
      = (List.replicate 10
          ({ emotion := "happy", confidence := 1,
             expressions := { neutral := 1, happy := 0, sad := 0, angry := 0,
                              fearful := 0, disgusted := 0, surprised := 0 },
             timestamp := 0 } : FacialEmotionData)).drop 1
        ++ [processFaceExpressions
              { neutral := 1, happy := 0, sad := 0, angry := 0, fearful := 0,
                disgusted := 0, surprised := 0 } 3] ∧
    ({ initialState 0 with
        voiceEmotion := some { emotion := "happy", confidence := 1, tone := "calm", timestamp := 0 },
        emotionHistory := List.replicate 50
          { emotion := "happy", source := "merged", timestamp := 0 } } :
      MultiModalEmotionState).emotionHistory.length = 50 ∧
    (recomputeMergedEmotion
        { initialState 0 with
          voiceEmotion := some { emotion := "happy", confidence := 1, tone := "calm", timestamp := 0 },
          emotionHistory := List.replicate 50
            { emotion := "happy", source := "merged", timestamp := 0 } } 4).emotionHistory
      = ({ initialState 0 with
           voiceEmotion := some { emotion := "happy", confidence := 1, tone := "calm", timestamp := 0 },
           emotionHistory := List.replicate 50
             { emotion := "happy", source := "merged", timestamp := 0 } } :
          MultiModalEmotionState).emotionHistory.drop 1
        ++ [{ emotion := (recomputeMergedEmotion
                { initialState 0 with
                  voiceEmotion := some { emotion := "happy", confidence := 1, tone := "calm", timestamp := 0 },
                  emotionHistory := List.replicate 50
                    { emotion := "happy", source := "merged", timestamp := 0 } } 4).mergedEmotion,
              source := "merged", timestamp := 4 }] :=
  ⟨by simp,
    bounded_fifo_buffers.2.2.1 _ _ 3 (by simp),
    by simp,
    bounded_fifo_buffers.2.2.2 _ 4 (by simp) (by decide)⟩

/-! ## Claim C10 -/

/-- C10 counterexample: the claim's parenthetical says only the three
channel-update operations stamp `lastUpdate`, but `reset()` (not a
channel update) also re-stamps it with the current time. -/
theorem reset_restamps_lastUpdate :
    (applyOp (initialState 0) (FusionOp.doReset 5)).lastUpdate
      ≠ (initialState 0).lastUpdate := by
  decide

/-- C10 (amended): `updateSessionDuration` never changes `lastUpdate` or
any channel slot (the three channel updates stamp `lastUpdate` to the
current time; `reset()` also re-stamps it as part of restoring defaults),
and with zero channels present the recompute's early return skips the
history append, so only `sessionDuration`, `mergedEmotion` and
`confidence` can change. -/
theorem updateSessionDuration_frame (s : MultiModalEmotionState) (secs : ℚ)
    (now : Int) :
    (updateSessionDuration s secs now).lastUpdate = s.lastUpdate ∧
    (updateSessionDuration s secs now).facialEmotion = s.facialEmotion ∧
    (updateSessionDuration s secs now).voiceEmotion = s.voiceEmotion ∧
    (updateSessionDuration s secs now).textEmotion = s.textEmotion ∧
    (s.facialEmotion = none → s.voiceEmotion = none → s.textEmotion = none →
      (updateSessionDuration s secs now).emotionHistory = s.emotionHistory ∧
      (updateSessionDuration s secs now).sessionDuration = secs ∧
      (updateSessionDuration s secs now).mergedEmotion = "neutral" ∧
      (updateSessionDuration s secs now).confidence = 1/2) ∧
    (∀ f, (updateFacialEmotion s f now).lastUpdate = now) ∧
    (∀ v, (updateVoiceEmotion s v now).lastUpdate = now) ∧
    (∀ t, (updateTextEmotion s t now).lastUpdate = now) := by
  have hframe : ∀ (s' : MultiModalEmotionState) (n : Int),
      (recomputeMergedEmotion s' n).lastUpdate = s'.lastUpdate ∧
      (recomputeMergedEmotion s' n).facialEmotion = s'.facialEmotion ∧
      (recomputeMergedEmotion s' n).voiceEmotion = s'.voiceEmotion ∧
      (recomputeMergedEmotion s' n).textEmotion = s'.textEmotion ∧
      (recomputeMergedEmotion s' n).sessionDuration = s'.sessionDuration := by
    intro s' n
    rw [recomputeMergedEmotion]
    by_cases hc : collectEmotions s' = [] <;> simp [hc]
  refine ⟨(hframe _ now).1, (hframe _ now).2.1, (hframe _ now).2.2.1,
    (hframe _ now).2.2.2.1, ?_, ?_, ?_, ?_⟩
  · intro hf hv ht
    have hc : collectEmotions { s with sessionDuration := secs } = [] := by
      rw [collectEmotions]
      simp [hf, hv, ht]
    rw [updateSessionDuration, recomputeMergedEmotion, if_pos hc]
    simp
  · intro f; exact (hframe _ now).1
  · intro v; exact (hframe _ now).1
  · intro t; exact (hframe _ now).1

/-- Witness for C10 at the creation state (zero channels). -/
theorem updateSessionDuration_frame_witness :
    (initialState 0).facialEmotion = none ∧
    (updateSessionDuration (initialState 0) 100 7).lastUpdate
      = (initialState 0).lastUpdate ∧
    (updateSessionDuration (initialState 0) 100 7).emotionHistory
      = (initialState 0).emotionHistory ∧
    (updateSessionDuration (initialState 0) 100 7).sessionDuration = 100 ∧
    (updateSessionDuration (initialState 0) 100 7).mergedEmotion = "neutral" :=
  ⟨rfl,
    (updateSessionDuration_frame (initialState 0) 100 7).1,
    ((updateSessionDuration_frame (initialState 0) 100 7).2.2.2.2.1
      rfl rfl rfl).1,
    ((updateSessionDuration_frame (initialState 0) 100 7).2.2.2.2.1
      rfl rfl rfl).2.1,
    ((updateSessionDuration_frame (initialState 0) 100 7).2.2.2.2.1
      rfl rfl rfl).2.2.1⟩

/-! ## Claim C1 -/

theorem heapGet_heapSet_self :
    ∀ (h : RefSem.Heap) (r : Nat) (v : List HistEntry), r < h.length →
      RefSem.heapGet (RefSem.heapSet h r v) r = v := by
  intro h
  induction h with
  | nil => intro r v hr; simp at hr
  | cons a t ih =>
      intro r v hr
      cases r with
      | zero => simp [RefSem.heapGet, RefSem.heapSet]
      | succ n =>
          have : n < t.length := by simpa using hr
          simpa [RefSem.heapGet, RefSem.heapSet] using ih n v this

/-- C1 counterexample: `getCurrentState` is only a shallow copy, so a
client push through the returned `emotionHistory` reference changes the
history the engine observes afterwards — the defensive-copy claim fails at
the creation state with a single pushed entry. -/
theorem getCurrentState_shallow_copy_leaks :
    RefSem.observedHistory RefSem.initialObj
        (RefSem.clientPush RefSem.initialHeap
          (RefSem.getCurrentState RefSem.initialObj).emotionHistory
          { emotion := "happy", source := "merged", timestamp := 1 })
      ≠ RefSem.observedHistory RefSem.initialObj RefSem.initialHeap := by
  decide

/-- C1 (amended): `getCurrentState` returns a shallow copy — field-for-field
equal to the internal state (so reassigning top-level fields of the copy
cannot affect the engine), but its `emotionHistory` is the same array
reference, so a mutation through the returned value is visible in the
engine's subsequently observed history. -/
theorem getCurrentState_shallow_copy (s : RefSem.MMStateObj) (h : RefSem.Heap)
    (x : HistEntry) (hr : s.emotionHistory < h.length) :
    RefSem.getCurrentState s = s ∧
    (RefSem.getCurrentState s).emotionHistory = s.emotionHistory ∧
    RefSem.observedHistory s
        (RefSem.clientPush h (RefSem.getCurrentState s).emotionHistory x)
      = RefSem.observedHistory s h ++ [x] := by
  refine ⟨rfl, rfl, ?_⟩
  rw [RefSem.observedHistory, RefSem.observedHistory, RefSem.clientPush]
  exact heapGet_heapSet_self h s.emotionHistory _ hr

/-- Witness for C1's amended statement at the creation state. -/
theorem getCurrentState_shallow_copy_witness :
    RefSem.initialObj.emotionHistory < RefSem.initialHeap.length ∧
    RefSem.observedHistory RefSem.initialObj
        (RefSem.clientPush RefSem.initialHeap
          (RefSem.getCurrentState RefSem.initialObj).emotionHistory
          { emotion := "tired", source := "merged", timestamp := 2 })
      = RefSem.observedHistory RefSem.initialObj RefSem.initialHeap
        ++ [{ emotion := "tired", source := "merged", timestamp := 2 }] :=
  ⟨by decide,
    (getCurrentState_shallow_copy RefSem.initialObj RefSem.initialHeap
      { emotion := "tired", source := "merged", timestamp := 2 }
      (by decide)).2.2⟩

end StudyEmotion
